import Mathlib

/-!
Verification of the `shallot-http-cors` middleware (`src/aws/index.ts`).

The middleware is a post-processing ("finally") step over an AWS
API-Gateway-style request/response pair.  We give a shallow embedding:

* JS objects used as string-keyed header maps become association lists
  `List (String × String)` looked up front-to-back (a JS object has at most
  one binding per key, and the code only ever *appends* a key that is
  currently unbound, so front-to-back lookup is faithful).  A JS binding to
  `null`/`undefined` is observationally identical to an absent key for every
  read the code performs (`?? `, `== null`, `!= null`), so it is modelled as
  absence of the key.
* Optional fields / possibly-`undefined` values become `Option`.
* `String(value)` on the `string | boolean | number` union becomes
  `HValue.toStr`.
-/

set_option autoImplicit false

namespace ShallotHTTPCors

/-- A JS string-keyed map of string values (event headers, response
headers), as an association list in insertion order. -/
abbrev HeaderMap := List (String × String)

/-- First-match lookup in a header map, i.e. reading `obj[key]` where an
absent (or null) binding reads as `none`. -/
def lookupHeader : HeaderMap → String → Option String
  | [], _ => none
  | (k, v) :: rest, key => if k = key then some v else lookupHeader rest key

/-- The `string | boolean | number` union accepted by
`setHeaderIfNotExists` for its `value` parameter. -/
inductive HValue where
  | str (s : String)
  | bool (b : Bool)
  | num (n : Int)
deriving DecidableEq

/-- JS `String(value)` on the union above. -/
def HValue.toStr : HValue → String
  | .str s => s
  | .bool b => if b then "true" else "false"
  | .num n => toString n

/-- The part of `APIGatewayEvent` the middleware reads: `httpMethod`
(possibly null/absent) and the inbound header mapping. -/
structure APIGatewayEvent where
  httpMethod : Option String
  headers : HeaderMap
deriving DecidableEq

/-- The part of `APIGatewayProxyResult` the middleware touches or must
leave alone: `statusCode` and `body` (absent on the bare `{}` object the
middleware may create) and the optional response header mapping. -/
structure APIGatewayProxyResult where
  statusCode : Option Int
  body : Option String
  headers : Option HeaderMap
deriving DecidableEq

/-- The bare `{}` object created by `request.response ?? {}`. -/
def emptyResult : APIGatewayProxyResult := ⟨none, none, none⟩

/-- The middleware `request` object: the fields the `finally` hook reads
and writes (`request.event`, `request.response`). -/
structure MiddlewareRequest where
  event : APIGatewayEvent
  response : Option APIGatewayProxyResult
deriving DecidableEq

/-- `TShallotHTTPCorsOptions`: all five fields optional. -/
structure TShallotHTTPCorsOptions where
  allowHeaders : Option String
  allowedOrigins : Option (List String)
  credentials : Option Bool
  maxAge : Option String
  cacheControl : Option String
deriving DecidableEq

/-- The default-merge `config = { allowedOrigins: ['*'], credentials:
false, ...config }` performed at the top of the `finally` hook. -/
def mergeConfig (config : TShallotHTTPCorsOptions) : TShallotHTTPCorsOptions :=
  { config with
    allowedOrigins := some (config.allowedOrigins.getD ["*"])
    credentials := some (config.credentials.getD false) }

/-- `setHeaderIfNotExists(response, header, value)`: writes
`response.headers[header] = String(value)` only when `value != null`,
`response.headers` is present, and `response.headers[header] == null`.
A fresh key is appended to the (insertion-ordered) mapping. -/
def setHeaderIfNotExists (response : APIGatewayProxyResult) (header : String)
    (value : Option HValue) : APIGatewayProxyResult :=
  match value, response.headers with
  | some v, some hs =>
    if lookupHeader hs header = none then
      { response with headers := some (hs ++ [(header, v.toStr)]) }
    else response
  | _, _ => response

/-- `parseAllowedOrigin(event, allowedOrigins)`: reads the inbound origin
as `event.headers['Origin'] ?? event.headers['origin']`, echoes it when it
is a member of `allowedOrigins`, otherwise falls back to `'*'` when
present, otherwise to `allowedOrigins[0]` (which is JS `undefined`, i.e.
`none`, on an empty list). -/
def parseAllowedOrigin (event : APIGatewayEvent) (allowedOrigins : List String) :
    Option String :=
  let inboundOrigin :=
    (lookupHeader event.headers "Origin").orElse fun _ =>
      lookupHeader event.headers "origin"
  match inboundOrigin with
  | some o =>
    if allowedOrigins.contains o then some o
    else if allowedOrigins.contains "*" then some "*"
    else allowedOrigins.head?
  | none =>
    if allowedOrigins.contains "*" then some "*"
    else allowedOrigins.head?

/-- The body of the `finally` hook inside the `httpMethod != null` guard,
after `request.response` and `request.response.headers` have been
defaulted: the five conditional `setHeaderIfNotExists` calls, in source
order.  Takes the already-merged config. -/
def corsSteps (config : TShallotHTTPCorsOptions) (event : APIGatewayEvent)
    (response : APIGatewayProxyResult) : APIGatewayProxyResult :=
  let r1 := setHeaderIfNotExists response "Access-Control-Allow-Headers"
    (config.allowHeaders.map HValue.str)
  let r2 :=
    if config.credentials = some true then
      setHeaderIfNotExists r1 "Access-Control-Allow-Credentials" (some (HValue.bool true))
    else r1
  let r3 := setHeaderIfNotExists r2 "Access-Control-Max-Age"
    (config.maxAge.map HValue.str)
  let r4 :=
    match config.allowedOrigins with
    | some origins =>
      if 0 < origins.length then
        setHeaderIfNotExists r3 "Access-Control-Allow-Origin"
          ((parseAllowedOrigin event origins).map HValue.str)
      else r3
    | none => r3
  if event.httpMethod = some "OPTIONS" then
    setHeaderIfNotExists r4 "Cache-Control" (config.cacheControl.map HValue.str)
  else r4

/-- `request.response = request.response ?? {}` followed by
`request.response.headers = request.response.headers ?? {}`. -/
def normalizeResponse (response : Option APIGatewayProxyResult) :
    APIGatewayProxyResult :=
  let r := response.getD emptyResult
  { r with headers := some (r.headers.getD []) }

/-- The `finally` hook of `ShallotAWSHttpCors(config)`: merge the config
defaults, and when `request.event.httpMethod != null`, default
`request.response` to `{}` and its `headers` to `{}`, then apply the five
header-setting steps. -/
def corsFinally (config : TShallotHTTPCorsOptions) (request : MiddlewareRequest) :
    MiddlewareRequest :=
  let config := mergeConfig config
  match request.event.httpMethod with
  | none => request
  | some _ =>
    { request with
      response := some (corsSteps config request.event
        (normalizeResponse request.response)) }

/-- The value bound to header `k` in a response, reading an absent
`headers` mapping as all-absent. -/
def respHeaderVal (r : APIGatewayProxyResult) (k : String) : Option String :=
  match r.headers with
  | some hs => lookupHeader hs k
  | none => none

/-- The value bound to header `k` in the response carried by a middleware
request (absent response or absent mapping reads as all-absent). -/
def headerVal (request : MiddlewareRequest) (k : String) : Option String :=
  match request.response with
  | some r => respHeaderVal r k
  | none => none

/-- The five header names the resolver can write. -/
def corsHeaderNames : List String :=
  ["Access-Control-Allow-Headers", "Access-Control-Allow-Credentials",
   "Access-Control-Max-Age", "Access-Control-Allow-Origin", "Cache-Control"]

/-- Spec-side restatement of the origin-resolution algorithm, written from
the specification text of `resolveOrigin` (inbound origin from `"Origin"`
falling back to `"origin"`; echo on exact membership; else `"*"` when
present; else the first element). -/
def resolveOriginSpec (e : APIGatewayEvent) (allowedOrigins : List String) :
    Option String :=
  match (lookupHeader e.headers "Origin").orElse fun _ =>
      lookupHeader e.headers "origin" with
  | some inbound =>
    if inbound ∈ allowedOrigins then some inbound
    else if "*" ∈ allowedOrigins then some "*"
    else allowedOrigins.head?
  | none =>
    if "*" ∈ allowedOrigins then some "*"
    else allowedOrigins.head?

/-! ### Basic lemmas about the header-map primitives -/

theorem lookupHeader_append (l1 l2 : HeaderMap) (k : String) :
    lookupHeader (l1 ++ l2) k =
      (lookupHeader l1 k).orElse fun _ => lookupHeader l2 k := by
  induction l1 with
  | nil => simp [lookupHeader]
  | cons p rest ih =>
    obtain ⟨pk, pv⟩ := p
    by_cases h : pk = k <;> simp [lookupHeader, h, ih]

theorem setHeaderIfNotExists_statusCode (r : APIGatewayProxyResult) (h : String)
    (v : Option HValue) : (setHeaderIfNotExists r h v).statusCode = r.statusCode := by
  obtain ⟨sc, b, hdrs⟩ := r
  rcases v with _ | hv <;> rcases hdrs with _ | hs <;> simp [setHeaderIfNotExists]
  split <;> rfl

theorem setHeaderIfNotExists_body (r : APIGatewayProxyResult) (h : String)
    (v : Option HValue) : (setHeaderIfNotExists r h v).body = r.body := by
  obtain ⟨sc, b, hdrs⟩ := r
  rcases v with _ | hv <;> rcases hdrs with _ | hs <;> simp [setHeaderIfNotExists]
  split <;> rfl

theorem setHeaderIfNotExists_headers_isSome (r : APIGatewayProxyResult) (h : String)
    (v : Option HValue) (hh : r.headers.isSome) :
    (setHeaderIfNotExists r h v).headers.isSome := by
  obtain ⟨sc, b, hdrs⟩ := r
  rcases v with _ | hv <;> rcases hdrs with _ | hs <;>
    simp_all [setHeaderIfNotExists]
  split <;> simp

theorem setHeaderIfNotExists_none (r : APIGatewayProxyResult) (h : String) :
    setHeaderIfNotExists r h none = r := by
  obtain ⟨sc, b, hdrs⟩ := r
  rcases hdrs with _ | hs <;> rfl

/-- First-writer-wins at the level of one write: a header already bound
keeps its value through any `setHeaderIfNotExists`. -/
theorem setHeaderIfNotExists_preserves_val (r : APIGatewayProxyResult)
    (h k : String) (v : Option HValue) (s : String)
    (hk : respHeaderVal r k = some s) :
    respHeaderVal (setHeaderIfNotExists r h v) k = some s := by
  obtain ⟨sc, b, hdrs⟩ := r
  rcases v with _ | hv
  · rwa [setHeaderIfNotExists_none]
  · rcases hdrs with _ | hs
    · exact hk
    · simp only [respHeaderVal] at hk
      simp only [setHeaderIfNotExists]
      split
      · simp [respHeaderVal, lookupHeader_append, hk]
      · simp [respHeaderVal, hk]

/-- A write to header `h` leaves every other header's value unchanged. -/
theorem setHeaderIfNotExists_other (r : APIGatewayProxyResult)
    (h k : String) (v : Option HValue) (hne : k ≠ h) :
    respHeaderVal (setHeaderIfNotExists r h v) k = respHeaderVal r k := by
  obtain ⟨sc, b, hdrs⟩ := r
  rcases v with _ | hv
  · rw [setHeaderIfNotExists_none]
  · rcases hdrs with _ | hs
    · rfl
    · simp only [setHeaderIfNotExists]
      split
      · simp only [respHeaderVal, lookupHeader_append, lookupHeader]
        cases lookupHeader hs k <;> simp [Ne.symm hne]
      · rfl

/-- The value read back after a write with a present value and a present
header mapping: the old binding when there was one, else the new value. -/
theorem setHeaderIfNotExists_self (r : APIGatewayProxyResult) (h : String)
    (hv : HValue) (hs : HeaderMap) (hh : r.headers = some hs) :
    respHeaderVal (setHeaderIfNotExists r h (some hv)) h =
      (respHeaderVal r h).orElse fun _ => some hv.toStr := by
  obtain ⟨sc, b, hdrs⟩ := r
  simp only at hh
  subst hh
  simp only [setHeaderIfNotExists]
  split
  · rename_i hnone
    simp [respHeaderVal, lookupHeader_append, hnone, lookupHeader]
  · rename_i hsome
    cases hlk : lookupHeader hs h with
    | none => exact absurd hlk hsome
    | some s => simp [respHeaderVal, hlk]

/-- A write whose target is already bound (or whose mapping is absent, or
whose value is absent) is a no-op. -/
theorem setHeaderIfNotExists_noop (r : APIGatewayProxyResult) (h : String)
    (v : Option HValue)
    (hcond : v = none ∨ r.headers = none ∨ (respHeaderVal r h).isSome) :
    setHeaderIfNotExists r h v = r := by
  obtain ⟨sc, b, hdrs⟩ := r
  rcases v with _ | hv
  · exact setHeaderIfNotExists_none _ h
  · rcases hdrs with _ | hs
    · rfl
    · simp only [setHeaderIfNotExists]
      rcases hcond with h1 | h2 | h3

      · exact absurd h1 (by simp)
      · exact absurd h2 (by simp)
      · simp only [respHeaderVal] at h3
        rw [if_neg]
        intro hnone
        rw [hnone] at h3
        simp at h3

/-- After a write of a present value into a present mapping, the target
header is bound. -/
theorem setHeaderIfNotExists_isSome (r : APIGatewayProxyResult) (h : String)
    (hv : HValue) (hs : HeaderMap) (hh : r.headers = some hs) :
    (respHeaderVal (setHeaderIfNotExists r h (some hv)) h).isSome := by
  rw [setHeaderIfNotExists_self r h hv hs hh]
  cases respHeaderVal r h <;> simp

/-- An already-bound header stays bound through any write. -/
theorem setHeaderIfNotExists_preserves_isSome (r : APIGatewayProxyResult)
    (h k : String) (v : Option HValue)
    (hk : (respHeaderVal r k).isSome) :
    (respHeaderVal (setHeaderIfNotExists r h v) k).isSome := by
  cases hlk : respHeaderVal r k with
  | none => rw [hlk] at hk; simp at hk
  | some s => rw [setHeaderIfNotExists_preserves_val r h k v s hlk]; simp

/-- A guarded write equals an unconditional write of a guarded value,
because writing an absent value is a no-op. -/
theorem ite_setHeaderIfNotExists (c : Prop) [Decidable c]
    (r : APIGatewayProxyResult) (h : String) (v : Option HValue) :
    (if c then setHeaderIfNotExists r h v else r) =
      setHeaderIfNotExists r h (if c then v else none) := by
  split <;> simp [setHeaderIfNotExists_none]

/-- The value read back at the written key, for an arbitrary optional
value and a present header mapping. -/
theorem setHeaderIfNotExists_val (r : APIGatewayProxyResult) (h : String)
    (v : Option HValue) (hs : HeaderMap) (hh : r.headers = some hs) :
    respHeaderVal (setHeaderIfNotExists r h v) h =
      (respHeaderVal r h).orElse fun _ => v.map HValue.toStr := by
  rcases v with _ | hv
  · rw [setHeaderIfNotExists_none]
    cases respHeaderVal r h <;> simp
  · rw [setHeaderIfNotExists_self r h hv hs hh]
    rfl

/-- `corsSteps` as five unconditional guarded-value writes, in source
order. -/
theorem corsSteps_eq_sets (config : TShallotHTTPCorsOptions)
    (e : APIGatewayEvent) (r : APIGatewayProxyResult) :
    corsSteps config e r =
      setHeaderIfNotExists
        (setHeaderIfNotExists
          (setHeaderIfNotExists
            (setHeaderIfNotExists
              (setHeaderIfNotExists r "Access-Control-Allow-Headers"
                (config.allowHeaders.map HValue.str))
              "Access-Control-Allow-Credentials"
              (if config.credentials = some true then some (HValue.bool true) else none))
            "Access-Control-Max-Age" (config.maxAge.map HValue.str))
          "Access-Control-Allow-Origin"
          (match config.allowedOrigins with
           | some origins =>
             if 0 < origins.length then
               (parseAllowedOrigin e origins).map HValue.str
             else none
           | none => none))
        "Cache-Control"
        (if e.httpMethod = some "OPTIONS" then config.cacheControl.map HValue.str
         else none) := by
  obtain ⟨ah, ao, cr, ma, cc⟩ := config
  unfold corsSteps
  rcases ao with _ | l <;>
    simp only [ite_setHeaderIfNotExists, setHeaderIfNotExists_none]

theorem corsSteps_statusCode (config : TShallotHTTPCorsOptions)
    (e : APIGatewayEvent) (r : APIGatewayProxyResult) :
    (corsSteps config e r).statusCode = r.statusCode := by
  rw [corsSteps_eq_sets]
  simp only [setHeaderIfNotExists_statusCode]

theorem corsSteps_body (config : TShallotHTTPCorsOptions)
    (e : APIGatewayEvent) (r : APIGatewayProxyResult) :
    (corsSteps config e r).body = r.body := by
  rw [corsSteps_eq_sets]
  simp only [setHeaderIfNotExists_body]

theorem corsSteps_headers_isSome (config : TShallotHTTPCorsOptions)
    (e : APIGatewayEvent) (r : APIGatewayProxyResult)
    (hh : r.headers.isSome) : (corsSteps config e r).headers.isSome := by
  rw [corsSteps_eq_sets]
  iterate 5 apply setHeaderIfNotExists_headers_isSome
  exact hh

/-- First-writer-wins through the whole step sequence. -/
theorem corsSteps_preserves_val (config : TShallotHTTPCorsOptions)
    (e : APIGatewayEvent) (r : APIGatewayProxyResult) (k s : String)
    (hk : respHeaderVal r k = some s) :
    respHeaderVal (corsSteps config e r) k = some s := by
  rw [corsSteps_eq_sets]
  iterate 5 apply setHeaderIfNotExists_preserves_val
  exact hk

/-- The step sequence never touches a header outside the five CORS
names. -/
theorem corsSteps_other (config : TShallotHTTPCorsOptions)
    (e : APIGatewayEvent) (r : APIGatewayProxyResult) (k : String)
    (hk : k ∉ corsHeaderNames) :
    respHeaderVal (corsSteps config e r) k = respHeaderVal r k := by
  simp only [corsHeaderNames, List.mem_cons, List.not_mem_nil, or_false,
    not_or] at hk
  obtain ⟨h1, h2, h3, h4, h5⟩ := hk
  rw [corsSteps_eq_sets,
    setHeaderIfNotExists_other _ _ _ _ h5,
    setHeaderIfNotExists_other _ _ _ _ h4,
    setHeaderIfNotExists_other _ _ _ _ h3,
    setHeaderIfNotExists_other _ _ _ _ h2,
    setHeaderIfNotExists_other _ _ _ _ h1]

theorem normalizeResponse_headerVal (request : MiddlewareRequest) (k : String) :
    respHeaderVal (normalizeResponse request.response) k = headerVal request k := by
  rcases request with ⟨e, _ | r⟩
  · rfl
  · obtain ⟨sc, b, hdrs⟩ := r
    rcases hdrs with _ | hs <;> rfl

theorem normalizeResponse_headers (response : Option APIGatewayProxyResult) :
    (normalizeResponse response).headers =
      some ((response.getD emptyResult).headers.getD []) := rfl

/-- When the method is present, the hook rewrites the response to the
step sequence applied to the normalized response. -/
theorem corsFinally_of_method (config : TShallotHTTPCorsOptions)
    (request : MiddlewareRequest) (m : String)
    (hm : request.event.httpMethod = some m) :
    corsFinally config request =
      { request with
        response := some (corsSteps (mergeConfig config) request.event
          (normalizeResponse request.response)) } := by
  unfold corsFinally
  rw [hm]

theorem headerVal_set_response (request : MiddlewareRequest)
    (r : APIGatewayProxyResult) (k : String) :
    headerVal { request with response := some r } k = respHeaderVal r k := rfl

theorem Option_orElse_none {α : Type} (x : Option α) :
    (x.orElse fun _ => none) = x := by
  cases x <;> rfl

theorem map_str_toStr (o : Option String) :
    (o.map HValue.str).map HValue.toStr = o := by
  cases o <;> rfl

/-- The guard `allowedOrigins.length > 0` makes the `allowedOrigins[0]`
fallback well-defined: on a non-empty list the resolved origin is always a
present string. -/
theorem parseAllowedOrigin_isSome (e : APIGatewayEvent) (origins : List String)
    (h : origins ≠ []) : (parseAllowedOrigin e origins).isSome := by
  rcases origins with _ | ⟨a, rest⟩
  · exact absurd rfl h
  · unfold parseAllowedOrigin
    cases (lookupHeader e.headers "Origin").orElse fun _ =>
        lookupHeader e.headers "origin" with
    | none => dsimp only; split <;> simp
    | some o => dsimp only; split_ifs <;> simp

/-- Against the default wildcard allow-list the resolved origin is always
the literal asterisk. -/
theorem parseAllowedOrigin_star (e : APIGatewayEvent) :
    parseAllowedOrigin e ["*"] = some "*" := by
  unfold parseAllowedOrigin
  cases (lookupHeader e.headers "Origin").orElse fun _ =>
      lookupHeader e.headers "origin" with
  | none => simp
  | some o =>
    by_cases ho : o = "*"
    · subst ho; simp
    · have hbeq : (o == "*") = false := beq_eq_false_iff_ne.mpr ho
      simp [List.contains, List.elem, ho, hbeq]

theorem corsFinally_of_method_none (config : TShallotHTTPCorsOptions)
    (request : MiddlewareRequest) (hm : request.event.httpMethod = none) :
    corsFinally config request = request := by
  unfold corsFinally
  rw [hm]

theorem normalizeResponse_of_headers_some (r : APIGatewayProxyResult)
    (hs : HeaderMap) (hh : r.headers = some hs) :
    normalizeResponse (some r) = r := by
  obtain ⟨sc, b, hdrs⟩ := r
  simp only at hh
  subst hh
  rfl

/-- Writing a present value into an empty header mapping yields the
one-entry mapping. -/
theorem setHeaderIfNotExists_empty (r : APIGatewayProxyResult) (h : String)
    (hv : HValue) (hh : r.headers = some []) :
    setHeaderIfNotExists r h (some hv) = { r with headers := some [(h, hv.toStr)] } := by
  obtain ⟨sc, b, hdrs⟩ := r
  simp only at hh
  subst hh
  simp [setHeaderIfNotExists, lookupHeader]

theorem setHeaderIfNotExists_isSome_val (r : APIGatewayProxyResult)
    (h : String) (v : Option HValue) (hv : v.isSome) (hh : r.headers.isSome) :
    (respHeaderVal (setHeaderIfNotExists r h v) h).isSome := by
  obtain ⟨x, rfl⟩ := Option.isSome_iff_exists.mp hv
  obtain ⟨hs, hhs⟩ := Option.isSome_iff_exists.mp hh
  exact setHeaderIfNotExists_isSome r h x hs hhs

theorem corsSteps_isSome_allowHeaders (config : TShallotHTTPCorsOptions)
    (e : APIGatewayEvent) (r : APIGatewayProxyResult) (a : String)
    (hh : r.headers.isSome) (ha : config.allowHeaders = some a) :
    (respHeaderVal (corsSteps config e r) "Access-Control-Allow-Headers").isSome := by
  rw [corsSteps_eq_sets]
  iterate 4 apply setHeaderIfNotExists_preserves_isSome
  exact setHeaderIfNotExists_isSome_val _ _ _ (by rw [ha]; rfl) hh

theorem corsSteps_isSome_credentials (config : TShallotHTTPCorsOptions)
    (e : APIGatewayEvent) (r : APIGatewayProxyResult)
    (hh : r.headers.isSome) (hc : config.credentials = some true) :
    (respHeaderVal (corsSteps config e r) "Access-Control-Allow-Credentials").isSome := by
  rw [corsSteps_eq_sets]
  iterate 3 apply setHeaderIfNotExists_preserves_isSome
  refine setHeaderIfNotExists_isSome_val _ _ _ ?_ ?_
  · rw [if_pos hc]; rfl
  · exact setHeaderIfNotExists_headers_isSome _ _ _ hh

theorem corsSteps_isSome_maxAge (config : TShallotHTTPCorsOptions)
    (e : APIGatewayEvent) (r : APIGatewayProxyResult) (a : String)
    (hh : r.headers.isSome) (ha : config.maxAge = some a) :
    (respHeaderVal (corsSteps config e r) "Access-Control-Max-Age").isSome := by
  rw [corsSteps_eq_sets]
  iterate 2 apply setHeaderIfNotExists_preserves_isSome
  refine setHeaderIfNotExists_isSome_val _ _ _ (by rw [ha]; rfl) ?_
  iterate 2 apply setHeaderIfNotExists_headers_isSome
  exact hh

theorem corsSteps_isSome_allowOrigin (config : TShallotHTTPCorsOptions)
    (e : APIGatewayEvent) (r : APIGatewayProxyResult) (l : List String)
    (hh : r.headers.isSome) (ho : config.allowedOrigins = some l)
    (hl : 0 < l.length) :
    (respHeaderVal (corsSteps config e r) "Access-Control-Allow-Origin").isSome := by
  rw [corsSteps_eq_sets]
  apply setHeaderIfNotExists_preserves_isSome
  refine setHeaderIfNotExists_isSome_val _ _ _ ?_ ?_
  · obtain ⟨s, hps⟩ := Option.isSome_iff_exists.mp
      (parseAllowedOrigin_isSome e l (List.length_pos.mp hl))
    rw [ho]
    dsimp only
    rw [if_pos hl, hps]
    rfl
  · iterate 3 apply setHeaderIfNotExists_headers_isSome
    exact hh

theorem corsSteps_isSome_cacheControl (config : TShallotHTTPCorsOptions)
    (e : APIGatewayEvent) (r : APIGatewayProxyResult) (c : String)
    (hh : r.headers.isSome) (hm : e.httpMethod = some "OPTIONS")
    (hcc : config.cacheControl = some c) :
    (respHeaderVal (corsSteps config e r) "Cache-Control").isSome := by
  rw [corsSteps_eq_sets]
  refine setHeaderIfNotExists_isSome_val _ _ _ ?_ ?_
  · rw [if_pos hm, hcc]; rfl
  · iterate 4 apply setHeaderIfNotExists_headers_isSome
    exact hh

/-- The step sequence is idempotent on any response whose header mapping
is present: every header it would write is already bound (or its value is
absent) after the first pass. -/
theorem corsSteps_idem (config : TShallotHTTPCorsOptions) (e : APIGatewayEvent)
    (r : APIGatewayProxyResult) (hh : r.headers.isSome) :
    corsSteps config e (corsSteps config e r) = corsSteps config e r := by
  have hR : (corsSteps config e r).headers.isSome :=
    corsSteps_headers_isSome config e r hh
  conv_lhs => rw [corsSteps_eq_sets]
  have e1 : setHeaderIfNotExists (corsSteps config e r)
      "Access-Control-Allow-Headers" (config.allowHeaders.map HValue.str) =
      corsSteps config e r := by
    rcases ha : config.allowHeaders with _ | a
    · exact setHeaderIfNotExists_none _ _
    · exact setHeaderIfNotExists_noop _ _ _
        (Or.inr (Or.inr (corsSteps_isSome_allowHeaders config e r a hh ha)))
  rw [e1]
  have e2 : setHeaderIfNotExists (corsSteps config e r)
      "Access-Control-Allow-Credentials"
      (if config.credentials = some true then some (HValue.bool true) else none) =
      corsSteps config e r := by
    by_cases hc : config.credentials = some true
    · rw [if_pos hc]
      exact setHeaderIfNotExists_noop _ _ _
        (Or.inr (Or.inr (corsSteps_isSome_credentials config e r hh hc)))
    · rw [if_neg hc]
      exact setHeaderIfNotExists_none _ _
  rw [e2]
  have e3 : setHeaderIfNotExists (corsSteps config e r)
      "Access-Control-Max-Age" (config.maxAge.map HValue.str) =
      corsSteps config e r := by
    rcases ha : config.maxAge with _ | a
    · exact setHeaderIfNotExists_none _ _
    · exact setHeaderIfNotExists_noop _ _ _
        (Or.inr (Or.inr (corsSteps_isSome_maxAge config e r a hh ha)))
  rw [e3]
  have e4 : setHeaderIfNotExists (corsSteps config e r)
      "Access-Control-Allow-Origin"
      (match config.allowedOrigins with
       | some origins =>
         if 0 < origins.length then
           (parseAllowedOrigin e origins).map HValue.str
         else none
       | none => none) =
      corsSteps config e r := by
    rcases ho : config.allowedOrigins with _ | l
    · exact setHeaderIfNotExists_none _ _
    · dsimp only
      by_cases hl : 0 < l.length
      · rw [if_pos hl]
        exact setHeaderIfNotExists_noop _ _ _
          (Or.inr (Or.inr (corsSteps_isSome_allowOrigin config e r l hh ho hl)))
      · rw [if_neg hl]
        exact setHeaderIfNotExists_none _ _
  rw [e4]
  by_cases hm : e.httpMethod = some "OPTIONS"
  · rw [if_pos hm]
    rcases hcc : config.cacheControl with _ | c
    · exact setHeaderIfNotExists_none _ _
    · exact setHeaderIfNotExists_noop _ _ _
        (Or.inr (Or.inr (corsSteps_isSome_cacheControl config e r c hh hm hcc)))
  · rw [if_neg hm]
    exact setHeaderIfNotExists_none _ _

theorem mergeConfig_allowHeaders (c : TShallotHTTPCorsOptions) :
    (mergeConfig c).allowHeaders = c.allowHeaders := rfl

theorem mergeConfig_maxAge (c : TShallotHTTPCorsOptions) :
    (mergeConfig c).maxAge = c.maxAge := rfl

theorem mergeConfig_cacheControl (c : TShallotHTTPCorsOptions) :
    (mergeConfig c).cacheControl = c.cacheControl := rfl

theorem mergeConfig_allowedOrigins (c : TShallotHTTPCorsOptions) :
    (mergeConfig c).allowedOrigins = some (c.allowedOrigins.getD ["*"]) := rfl

theorem mergeConfig_credentials (c : TShallotHTTPCorsOptions) :
    (mergeConfig c).credentials = some (c.credentials.getD false) := rfl

theorem mergeConfig_credentials_true (c : TShallotHTTPCorsOptions) :
    (mergeConfig c).credentials = some true ↔ c.credentials = some true := by
  rw [mergeConfig_credentials]
  rcases hc : c.credentials with _ | b
  · simp
  · cases b <;> simp

theorem setHeaderIfNotExists_val_isSome (r : APIGatewayProxyResult) (h : String)
    (v : Option HValue) (hh : r.headers.isSome) :
    respHeaderVal (setHeaderIfNotExists r h v) h =
      (respHeaderVal r h).orElse fun _ => v.map HValue.toStr := by
  obtain ⟨hs, hhs⟩ := Option.isSome_iff_exists.mp hh
  exact setHeaderIfNotExists_val r h v hs hhs

/-- What the step sequence leaves at each of the five CORS header names:
the pre-existing binding when there is one, and otherwise the configured
value gated by that header's condition. -/
theorem corsSteps_vals (config : TShallotHTTPCorsOptions) (e : APIGatewayEvent)
    (r : APIGatewayProxyResult) (hs : HeaderMap) (hh : r.headers = some hs) :
    (respHeaderVal (corsSteps config e r) "Access-Control-Allow-Headers" =
      (respHeaderVal r "Access-Control-Allow-Headers").orElse fun _ =>
        config.allowHeaders) ∧
    (respHeaderVal (corsSteps config e r) "Access-Control-Allow-Credentials" =
      (respHeaderVal r "Access-Control-Allow-Credentials").orElse fun _ =>
        if config.credentials = some true then some "true" else none) ∧
    (respHeaderVal (corsSteps config e r) "Access-Control-Max-Age" =
      (respHeaderVal r "Access-Control-Max-Age").orElse fun _ => config.maxAge) ∧
    (respHeaderVal (corsSteps config e r) "Access-Control-Allow-Origin" =
      (respHeaderVal r "Access-Control-Allow-Origin").orElse fun _ =>
        match config.allowedOrigins with
        | some l => if 0 < l.length then parseAllowedOrigin e l else none
        | none => none) ∧
    (respHeaderVal (corsSteps config e r) "Cache-Control" =
      (respHeaderVal r "Cache-Control").orElse fun _ =>
        if e.httpMethod = some "OPTIONS" then config.cacheControl else none) := by
  have hh0 : r.headers.isSome := by rw [hh]; rfl
  rw [corsSteps_eq_sets]
  refine ⟨?_, ?_, ?_, ?_, ?_⟩
  · rw [setHeaderIfNotExists_other _ _ _ _ (by decide),
      setHeaderIfNotExists_other _ _ _ _ (by decide),
      setHeaderIfNotExists_other _ _ _ _ (by decide),
      setHeaderIfNotExists_other _ _ _ _ (by decide),
      setHeaderIfNotExists_val_isSome _ _ _ hh0, map_str_toStr]
  · rw [setHeaderIfNotExists_other _ _ _ _ (by decide),
      setHeaderIfNotExists_other _ _ _ _ (by decide),
      setHeaderIfNotExists_other _ _ _ _ (by decide),
      setHeaderIfNotExists_val_isSome _ _ _
        (setHeaderIfNotExists_headers_isSome _ _ _ hh0),
      setHeaderIfNotExists_other _ _ _ _ (by decide)]
    by_cases hc : config.credentials = some true <;> simp [hc, HValue.toStr]
  · rw [setHeaderIfNotExists_other _ _ _ _ (by decide),
      setHeaderIfNotExists_other _ _ _ _ (by decide),
      setHeaderIfNotExists_val_isSome _ _ _
        (setHeaderIfNotExists_headers_isSome _ _ _
          (setHeaderIfNotExists_headers_isSome _ _ _ hh0)),
      setHeaderIfNotExists_other _ _ _ _ (by decide),
      setHeaderIfNotExists_other _ _ _ _ (by decide), map_str_toStr]
  · rw [setHeaderIfNotExists_other _ _ _ _ (by decide),
      setHeaderIfNotExists_val_isSome _ _ _
        (setHeaderIfNotExists_headers_isSome _ _ _
          (setHeaderIfNotExists_headers_isSome _ _ _
            (setHeaderIfNotExists_headers_isSome _ _ _ hh0))),
      setHeaderIfNotExists_other _ _ _ _ (by decide),
      setHeaderIfNotExists_other _ _ _ _ (by decide),
      setHeaderIfNotExists_other _ _ _ _ (by decide)]
    rcases config.allowedOrigins with _ | l
    · rfl
    · dsimp only
      by_cases hl : 0 < l.length
      · rw [if_pos hl, if_pos hl, map_str_toStr]
      · rw [if_neg hl, if_neg hl]
        rfl
  · rw [setHeaderIfNotExists_val_isSome _ _ _
        (setHeaderIfNotExists_headers_isSome _ _ _
          (setHeaderIfNotExists_headers_isSome _ _ _
            (setHeaderIfNotExists_headers_isSome _ _ _
              (setHeaderIfNotExists_headers_isSome _ _ _ hh0)))),
      setHeaderIfNotExists_other _ _ _ _ (by decide),
      setHeaderIfNotExists_other _ _ _ _ (by decide),
      setHeaderIfNotExists_other _ _ _ _ (by decide),
      setHeaderIfNotExists_other _ _ _ _ (by decide)]
    by_cases hm : e.httpMethod = some "OPTIONS"
    · rw [if_pos hm, if_pos hm, map_str_toStr]
    · rw [if_neg hm, if_neg hm]
      rfl

/-- The full hook, for a request with a method present: at each of the
five CORS header names the pre-existing binding wins, and otherwise the
(default-merged) configured value gated by that header's condition is
written. -/
theorem corsFinally_vals (config : TShallotHTTPCorsOptions)
    (request : MiddlewareRequest) (m : String)
    (hm : request.event.httpMethod = some m) :
    (headerVal (corsFinally config request) "Access-Control-Allow-Headers" =
      (headerVal request "Access-Control-Allow-Headers").orElse fun _ =>
        config.allowHeaders) ∧
    (headerVal (corsFinally config request) "Access-Control-Allow-Credentials" =
      (headerVal request "Access-Control-Allow-Credentials").orElse fun _ =>
        if config.credentials = some true then some "true" else none) ∧
    (headerVal (corsFinally config request) "Access-Control-Max-Age" =
      (headerVal request "Access-Control-Max-Age").orElse fun _ => config.maxAge) ∧
    (headerVal (corsFinally config request) "Access-Control-Allow-Origin" =
      (headerVal request "Access-Control-Allow-Origin").orElse fun _ =>
        if 0 < (config.allowedOrigins.getD ["*"]).length then
          parseAllowedOrigin request.event (config.allowedOrigins.getD ["*"])
        else none) ∧
    (headerVal (corsFinally config request) "Cache-Control" =
      (headerVal request "Cache-Control").orElse fun _ =>
        if request.event.httpMethod = some "OPTIONS" then config.cacheControl
        else none) := by
  obtain ⟨b1, b2, b3, b4, b5⟩ :=
    corsSteps_vals (mergeConfig config) request.event
      (normalizeResponse request.response) _ (normalizeResponse_headers request.response)
  rw [corsFinally_of_method config request m hm]
  refine ⟨?_, ?_, ?_, ?_, ?_⟩
  · rw [headerVal_set_response, b1, normalizeResponse_headerVal]
    rfl
  · rw [headerVal_set_response, b2, normalizeResponse_headerVal]
    congr 1
    funext x
    by_cases hc : config.credentials = some true
    · rw [if_pos ((mergeConfig_credentials_true config).mpr hc), if_pos hc]
    · rw [if_neg (fun hx => hc ((mergeConfig_credentials_true config).mp hx)),
        if_neg hc]
  · rw [headerVal_set_response, b3, normalizeResponse_headerVal]
    rfl
  · rw [headerVal_set_response, b4, normalizeResponse_headerVal]
    rfl
  · rw [headerVal_set_response, b5, normalizeResponse_headerVal]
    rfl

/-! ### The claims -/

/-- C1: for every request and non-empty `allowedOrigins`,
`parseAllowedOrigin` behaves as the spec's `resolveOrigin`: echo the
inbound origin (header `"Origin"`, falling back to `"origin"`) when it is
an exact member, else `"*"` when present, else `allowedOrigins[0]`; and a
request carrying the origin only under lowercase `"origin"` resolves the
same as with `"Origin"`. -/
theorem claim_C1 (e : APIGatewayEvent) (origins : List String)
    (h : origins ≠ []) :
    parseAllowedOrigin e origins = resolveOriginSpec e origins ∧
    (∀ v : String,
      parseAllowedOrigin ⟨e.httpMethod, [("origin", v)]⟩ origins =
        parseAllowedOrigin ⟨e.httpMethod, [("Origin", v)]⟩ origins) := by
  constructor
  · unfold parseAllowedOrigin resolveOriginSpec
    cases (lookupHeader e.headers "Origin").orElse fun _ =>
        lookupHeader e.headers "origin" with
    | none => dsimp only; simp
    | some o => dsimp only; simp
  · intro v
    unfold parseAllowedOrigin
    simp [lookupHeader]

theorem claim_C1_witness :
    (["https://www.other-website.com"] : List String) ≠ [] ∧
    (parseAllowedOrigin ⟨some "GET", [("Origin", "https://www.example.com")]⟩
        ["https://www.other-website.com"] =
      resolveOriginSpec ⟨some "GET", [("Origin", "https://www.example.com")]⟩
        ["https://www.other-website.com"] ∧
    ∀ v : String,
      parseAllowedOrigin ⟨some "GET", [("origin", v)]⟩
          ["https://www.other-website.com"] =
        parseAllowedOrigin ⟨some "GET", [("Origin", v)]⟩
          ["https://www.other-website.com"]) :=
  ⟨by decide,
   claim_C1 ⟨some "GET", [("Origin", "https://www.example.com")]⟩
     ["https://www.other-website.com"] (by decide)⟩

/-- C2: first-writer-wins — a header bound to a (non-null) value before
the hook runs is bound to the same value afterwards, for every
configuration and request. -/
theorem claim_C2 (config : TShallotHTTPCorsOptions) (request : MiddlewareRequest)
    (k v : String) (h : headerVal request k = some v) :
    headerVal (corsFinally config request) k = some v := by
  cases hm : request.event.httpMethod with
  | none =>
    rw [corsFinally_of_method_none config request hm]
    exact h
  | some m =>
    rw [corsFinally_of_method config request m hm, headerVal_set_response]
    apply corsSteps_preserves_val
    rw [normalizeResponse_headerVal]
    exact h

theorem claim_C2_witness :
    headerVal
      (⟨⟨some "GET", [("Origin", "https://www.example.com")]⟩,
        some ⟨some 200, some "", some [("X-Test", "")]⟩⟩ : MiddlewareRequest)
      "X-Test" = some "" ∧
    headerVal
      (corsFinally ⟨none, none, none, none, none⟩
        ⟨⟨some "GET", [("Origin", "https://www.example.com")]⟩,
         some ⟨some 200, some "", some [("X-Test", "")]⟩⟩)
      "X-Test" = some "" :=
  ⟨by decide, claim_C2 ⟨none, none, none, none, none⟩ _ "X-Test" "" (by decide)⟩

/-- C3: when the request carries no HTTP method, the hook performs no
action at all — the request (response object included) is returned
exactly as it was, for every configuration. -/
theorem claim_C3 (config : TShallotHTTPCorsOptions) (request : MiddlewareRequest)
    (h : request.event.httpMethod = none) :
    corsFinally config request = request :=
  corsFinally_of_method_none config request h

theorem claim_C3_witness :
    corsFinally ⟨some "x-req-id", none, some true, some "5", some "no-cache"⟩
      ⟨⟨none, [("Origin", "https://www.example.com")]⟩, none⟩ =
      ⟨⟨none, [("Origin", "https://www.example.com")]⟩, none⟩ :=
  claim_C3 ⟨some "x-req-id", none, some true, some "5", some "no-cache"⟩ _ rfl

/-- C4: the hook is idempotent — running it twice with unchanged inputs
yields exactly the same request/response state as running it once. -/
theorem claim_C4 (config : TShallotHTTPCorsOptions) (request : MiddlewareRequest) :
    corsFinally config (corsFinally config request) = corsFinally config request := by
  cases hm : request.event.httpMethod with
  | none =>
    rw [corsFinally_of_method_none config request hm,
      corsFinally_of_method_none config request hm]
  | some m =>
    rw [corsFinally_of_method config request m hm]
    have hm2 : ({ request with
        response := some (corsSteps (mergeConfig config) request.event
          (normalizeResponse request.response)) } :
            MiddlewareRequest).event.httpMethod = some m := hm
    rw [corsFinally_of_method config _ m hm2]
    dsimp only
    have hnr : (normalizeResponse request.response).headers.isSome := by
      rw [normalizeResponse_headers]
      rfl
    obtain ⟨hsX, hXs⟩ := Option.isSome_iff_exists.mp
      (corsSteps_headers_isSome (mergeConfig config) request.event _ hnr)
    rw [normalizeResponse_of_headers_some _ _ hXs, corsSteps_idem _ _ _ hnr]

/-- C5: with an empty `allowedOrigins` list the hook never writes
`Access-Control-Allow-Origin`: its binding (and hence its presence) is
exactly what it was before, for every request. -/
theorem claim_C5 (config : TShallotHTTPCorsOptions) (request : MiddlewareRequest)
    (h : config.allowedOrigins = some []) :
    headerVal (corsFinally config request) "Access-Control-Allow-Origin" =
      headerVal request "Access-Control-Allow-Origin" ∧
    ((headerVal (corsFinally config request) "Access-Control-Allow-Origin").isSome ↔
      (headerVal request "Access-Control-Allow-Origin").isSome) := by
  have main : headerVal (corsFinally config request) "Access-Control-Allow-Origin" =
      headerVal request "Access-Control-Allow-Origin" := by
    cases hm : request.event.httpMethod with
    | none => rw [corsFinally_of_method_none config request hm]
    | some m =>
      rw [(corsFinally_vals config request m hm).2.2.2.1, h]
      simp [Option_orElse_none]
  exact ⟨main, by rw [main]⟩

theorem claim_C5_witness :
    headerVal
      (corsFinally ⟨none, some [], none, none, none⟩
        ⟨⟨some "GET", [("Origin", "https://www.example.com")]⟩,
         some ⟨some 200, some "", none⟩⟩)
      "Access-Control-Allow-Origin" =
      headerVal
        (⟨⟨some "GET", [("Origin", "https://www.example.com")]⟩,
          some ⟨some 200, some "", none⟩⟩ : MiddlewareRequest)
        "Access-Control-Allow-Origin" ∧
    ((headerVal
       (corsFinally ⟨none, some [], none, none, none⟩
         ⟨⟨some "GET", [("Origin", "https://www.example.com")]⟩,
          some ⟨some 200, some "", none⟩⟩)
       "Access-Control-Allow-Origin").isSome ↔
      (headerVal
        (⟨⟨some "GET", [("Origin", "https://www.example.com")]⟩,
          some ⟨some 200, some "", none⟩⟩ : MiddlewareRequest)
        "Access-Control-Allow-Origin").isSome) :=
  claim_C5 ⟨none, some [], none, none, none⟩ _ rfl

/-- C6: `Cache-Control` is written only for method exactly `"OPTIONS"`
with `cacheControl` configured and the header not already bound; for any
other (or absent) method its binding is unchanged even when configured. -/
theorem claim_C6 (config : TShallotHTTPCorsOptions) (request : MiddlewareRequest) :
    headerVal (corsFinally config request) "Cache-Control" =
      (headerVal request "Cache-Control").orElse fun _ =>
        if request.event.httpMethod = some "OPTIONS" then config.cacheControl
        else none := by
  cases hm : request.event.httpMethod with
  | none =>
    rw [corsFinally_of_method_none config request hm]
    cases hcv : headerVal request "Cache-Control" <;> simp [Option.orElse, hm]
  | some m =>
    have base := (corsFinally_vals config request m hm).2.2.2.2
    simp only [hm] at base
    exact base

/-- C7: with a method present, `credentials = true` writes
`Access-Control-Allow-Credentials` as the literal string `"true"` (unless
already bound); `credentials` false or absent never writes it. -/
theorem claim_C7 (config : TShallotHTTPCorsOptions) (request : MiddlewareRequest)
    (m : String) (hm : request.event.httpMethod = some m) :
    headerVal (corsFinally config request) "Access-Control-Allow-Credentials" =
      (headerVal request "Access-Control-Allow-Credentials").orElse fun _ =>
        if config.credentials = some true then some "true" else none :=
  (corsFinally_vals config request m hm).2.1

theorem claim_C7_witness :
    headerVal
      (corsFinally ⟨none, none, some true, none, none⟩
        ⟨⟨some "GET", [("Origin", "https://www.example.com")]⟩,
         some ⟨some 200, some "", none⟩⟩)
      "Access-Control-Allow-Credentials" =
      (headerVal
        (⟨⟨some "GET", [("Origin", "https://www.example.com")]⟩,
          some ⟨some 200, some "", none⟩⟩ : MiddlewareRequest)
        "Access-Control-Allow-Credentials").orElse fun _ =>
          if (⟨none, none, some true, none, none⟩ :
              TShallotHTTPCorsOptions).credentials = some true then some "true"
          else none :=
  claim_C7 ⟨none, none, some true, none, none⟩ _ "GET" rfl

/-- C8: defaulting is the hook's own job — omitted `allowedOrigins` and
`credentials` become `["*"]` and `false` — and a fully-defaulted
configuration on a non-`OPTIONS` request with an initially empty header
mapping sets exactly one header: `Access-Control-Allow-Origin: *`. -/
theorem claim_C8 (config : TShallotHTTPCorsOptions) (request : MiddlewareRequest)
    (m : String)
    (h1 : config.allowHeaders = none) (h2 : config.allowedOrigins = none)
    (h3 : config.credentials = none) (h4 : config.maxAge = none)
    (h5 : config.cacheControl = none)
    (hm : request.event.httpMethod = some m) (hnm : m ≠ "OPTIONS")
    (hempty : (request.response.getD emptyResult).headers.getD [] = []) :
    (∀ c : TShallotHTTPCorsOptions, c.allowedOrigins = none →
      (mergeConfig c).allowedOrigins = some ["*"]) ∧
    (∀ c : TShallotHTTPCorsOptions, c.credentials = none →
      (mergeConfig c).credentials = some false) ∧
    ∃ r, (corsFinally config request).response = some r ∧
      r.headers = some [("Access-Control-Allow-Origin", "*")] := by
  refine ⟨fun c hc => by rw [mergeConfig_allowedOrigins, hc, Option.getD_none],
    fun c hc => by rw [mergeConfig_credentials, hc, Option.getD_none], ?_⟩
  rw [corsFinally_of_method config request m hm]
  refine ⟨_, rfl, ?_⟩
  have hnrh : (normalizeResponse request.response).headers = some [] := by
    rw [normalizeResponse_headers, hempty]
  rw [corsSteps_eq_sets]
  have v1 : (mergeConfig config).allowHeaders.map HValue.str = none := by
    rw [mergeConfig_allowHeaders, h1]
    rfl
  rw [v1, setHeaderIfNotExists_none]
  have v2 : (if (mergeConfig config).credentials = some true
      then some (HValue.bool true) else none) = (none : Option HValue) := by
    rw [if_neg]
    rw [mergeConfig_credentials, h3]
    simp
  rw [v2, setHeaderIfNotExists_none]
  have v3 : (mergeConfig config).maxAge.map HValue.str = none := by
    rw [mergeConfig_maxAge, h4]
    rfl
  rw [v3, setHeaderIfNotExists_none]
  have v4 : (match (mergeConfig config).allowedOrigins with
      | some origins =>
        if 0 < origins.length then
          (parseAllowedOrigin request.event origins).map HValue.str
        else none
      | none => none) = some (HValue.str "*") := by
    rw [mergeConfig_allowedOrigins, h2, Option.getD_none]
    dsimp only
    rw [if_pos (by decide), parseAllowedOrigin_star]
    rfl
  rw [v4]
  have v5 : (if request.event.httpMethod = some "OPTIONS"
      then (mergeConfig config).cacheControl.map HValue.str else none) =
      (none : Option HValue) := by
    rw [hm, if_neg (by simp [hnm])]
  rw [v5, setHeaderIfNotExists_none, setHeaderIfNotExists_empty _ _ _ hnrh]
  rfl

theorem claim_C8_witness :
    ((⟨none, none, none, none, none⟩ : TShallotHTTPCorsOptions).allowHeaders =
      none ∧ "GET" ≠ "OPTIONS") ∧
    ((∀ c : TShallotHTTPCorsOptions, c.allowedOrigins = none →
      (mergeConfig c).allowedOrigins = some ["*"]) ∧
    (∀ c : TShallotHTTPCorsOptions, c.credentials = none →
      (mergeConfig c).credentials = some false) ∧
    ∃ r,
      (corsFinally ⟨none, none, none, none, none⟩
        ⟨⟨some "GET", [("Origin", "https://www.example.com")]⟩,
         some ⟨some 200, some "", none⟩⟩).response = some r ∧
      r.headers = some [("Access-Control-Allow-Origin", "*")]) :=
  ⟨⟨rfl, by decide⟩,
   claim_C8 ⟨none, none, none, none, none⟩
     ⟨⟨some "GET", [("Origin", "https://www.example.com")]⟩,
      some ⟨some 200, some "", none⟩⟩
     "GET" rfl rfl rfl rfl rfl rfl (by decide) rfl⟩

/-- C9: the hook's only list indexing, `allowedOrigins[0]` inside
`parseAllowedOrigin`, is guarded by non-emptiness: on every non-empty
list the resolved origin is a present string, so the embedding is total
and no error branch is reachable. -/
theorem claim_C9 (e : APIGatewayEvent) (origins : List String)
    (h : origins ≠ []) : (parseAllowedOrigin e origins).isSome :=
  parseAllowedOrigin_isSome e origins h

theorem claim_C9_witness :
    (["https://www.other-website.com"] : List String) ≠ [] ∧
    (parseAllowedOrigin ⟨some "GET", []⟩
      ["https://www.other-website.com"]).isSome :=
  ⟨by decide, claim_C9 ⟨some "GET", []⟩ _ (by decide)⟩

/-- C10: with a method present, the hook only ever writes the five CORS
header names — every other header binding, and the response's
`statusCode` and `body`, are unchanged. -/
theorem claim_C10 (config : TShallotHTTPCorsOptions) (request : MiddlewareRequest)
    (m : String) (hm : request.event.httpMethod = some m) :
    (∀ k, k ∉ corsHeaderNames →
      headerVal (corsFinally config request) k = headerVal request k) ∧
    (∀ r, request.response = some r →
      ∃ r2, (corsFinally config request).response = some r2 ∧
        r2.statusCode = r.statusCode ∧ r2.body = r.body) := by
  constructor
  · intro k hk
    rw [corsFinally_of_method config request m hm, headerVal_set_response,
      corsSteps_other _ _ _ _ hk, normalizeResponse_headerVal]
  · intro r hr
    rw [corsFinally_of_method config request m hm]
    refine ⟨_, rfl, ?_, ?_⟩
    · rw [corsSteps_statusCode, hr]
      rfl
    · rw [corsSteps_body, hr]
      rfl

theorem claim_C10_witness :
    (⟨⟨some "GET", [("Origin", "https://www.example.com")]⟩,
      some ⟨some 200, some "", some [("X-Test", "")]⟩⟩ :
        MiddlewareRequest).event.httpMethod = some "GET" ∧
    "X-Test" ∉ corsHeaderNames ∧
    headerVal
      (corsFinally ⟨none, none, none, none, none⟩
        ⟨⟨some "GET", [("Origin", "https://www.example.com")]⟩,
         some ⟨some 200, some "", some [("X-Test", "")]⟩⟩) "X-Test" =
      headerVal
        (⟨⟨some "GET", [("Origin", "https://www.example.com")]⟩,
          some ⟨some 200, some "", some [("X-Test", "")]⟩⟩ :
            MiddlewareRequest) "X-Test" :=
  ⟨rfl, by decide,
   (claim_C10 ⟨none, none, none, none, none⟩ _ "GET" rfl).1 "X-Test" (by decide)⟩

end ShallotHTTPCors
